import Mathlib

/-!
Verification of the MANTIS IODEF importer.

A shallow embedding, in Lean 4, of `mantis_iodef_importer/importer.py`
(class `iodef_Import`) from the `django-mantis-iodef-importer` repository,
together with proofs about the embedded definitions.

Conventions used throughout:

* Python strings are `String`; Python `str.split` with a one-character
  separator is `pySplit` (defined below over `List Char`, structurally
  recursive so that concrete instances evaluate inside the kernel).
* Python `None` is `Option.none`; a Python function that can raise an
  exception is embedded as a function into `Option _`, with `none`
  standing for "an exception escapes".
* `datetime` values are the `DateTime` structure below: the naive civil
  fields plus an optional UTC offset in minutes (`none` = naive value,
  mirroring `tzinfo is None`).
* Library functions of the host frameworks (Django's
  `django.utils.dateparse.parse_datetime`, the dingos helpers
  `search_by_re_list` / `extract_attributes`, and the dict plumbing of
  `MantisImporter`) are external to the repository; they are embedded
  faithfully to their library semantics where the importer relies on
  them, as documented at each definition.
-/

namespace IodefImport

/-! ## Python-style string primitives -/

/-- Is `c` an ASCII decimal digit? -/
def isDigitCh (c : Char) : Bool :=
  48 ≤ c.toNat && c.toNat ≤ 57

/-- Numeric value of an ASCII digit. -/
def digitVal (c : Char) : Nat := c.toNat - 48

/-- Value of a digit string, most significant digit first. -/
def digitsVal (l : List Char) : Nat :=
  l.foldl (fun a c => a * 10 + digitVal c) 0

/-- Auxiliary for `pySplit`: `acc` holds the current piece, reversed. -/
def pySplitAux (sep : Char) : List Char → List Char → List String
  | [], acc => [String.mk acc.reverse]
  | c :: cs, acc =>
    if c = sep then String.mk acc.reverse :: pySplitAux sep cs []
    else pySplitAux sep cs (c :: acc)

/-- Python `s.split(sep)` for a one-character separator `sep`:
splits at every occurrence, keeping empty pieces
(`"".split(":") == [""]`, `"a::b".split(":") == ["a","","b"]`). -/
def pySplit (s : String) (sep : Char) : List String :=
  pySplitAux sep s.data []

/-- Does `l` start with `p`? -/
def listStartsWith : List Char → List Char → Bool
  | [], _ => true
  | _ :: _, [] => false
  | p :: ps, c :: cs => p = c && listStartsWith ps cs

/-- Strip the leading sequence `p` from `l`, if present. -/
def stripStart : List Char → List Char → Option (List Char)
  | [], l => some l
  | _ :: _, [] => none
  | p :: ps, c :: cs => if c = p then stripStart ps cs else none

/-- Substring containment on character lists
(Python `needle in hay` for strings). -/
def containsSub : List Char → List Char → Bool
  | hay, needle =>
    if listStartsWith needle hay then true
    else
      match hay with
      | [] => false
      | _ :: rest => containsSub rest needle

/-- Python `needle in hay` for strings: substring containment. -/
def strContainsStr (hay needle : String) : Bool :=
  containsSub hay.data needle.data

/-- Split `l` at the first occurrence of `sep`:
`some (before, after)`, or `none` when `sep` does not occur. -/
def breakAtCh (sep : Char) : List Char → Option (List Char × List Char)
  | [] => none
  | c :: cs =>
    if c = sep then some ([], cs)
    else (breakAtCh sep cs).map (fun p => (c :: p.1, p.2))

/-- The characters before the first newline (a regex `.` without
`DOTALL` never matches a newline). -/
def takeToNewline (l : List Char) : List Char :=
  l.takeWhile (fun c => c ≠ '\n')

/-- Python truthiness of an optional string
(`None` and `''` are falsy). -/
def pyTruthyStr : Option String → Bool
  | none => false
  | some s => !s.data.isEmpty

/-- Python `'%s' % v` for an optional string: `None` prints as `"None"`. -/
def pyStrOfOpt : Option String → String
  | some s => s
  | none => "None"

/-! ## `datetime` values and Django's `parse_datetime`

The importer (importer.py lines 199-204) runs
`django.utils.dateparse.parse_datetime` on the text of a `ReportTime`
element and then makes the result timezone-aware.  `parse_datetime`
matches the anchored regular expression

`(?P<year>\d{4})-(?P<month>\d{1,2})-(?P<day>\d{1,2})[T ]`
`(?P<hour>\d{1,2}):(?P<minute>\d{1,2})`
`(?::(?P<second>\d{1,2})(?:\.(?P<microsecond>\d{1,6})\d{0,6})?)?`
`(?P<tzinfo>Z|[+-]\d{2}(?::?\d{2})?)?$`

and feeds the pieces to the `datetime.datetime` constructor; the
constructor ([e.g.] month 13) and `get_fixed_timezone` (offsets of a
day or more) raise `ValueError`.  In the importer both a non-match
(`None`, which then crashes `timezone.is_aware`) and a `ValueError`
make `id_and_revision_extractor` raise, so the embedding maps both to
`none`.  (The package requires `django>=1.5.5`; Django releases differ
on exotic inputs — minute-less offsets, offsets of a day or more — but
agree on everything the proofs below evaluate concretely, and the
general theorems depend on `parse_datetime` only through parse-success
hypotheses.) -/

/-- A Python `datetime.datetime`: naive civil fields plus
`utcoffset` in minutes (`none` iff `tzinfo is None`, i.e. naive). -/
structure DateTime where
  year : Nat
  month : Nat
  day : Nat
  hour : Nat
  minute : Nat
  second : Nat
  microsecond : Nat
  utcoffset : Option Int
deriving DecidableEq, Repr

/-- `django.utils.timezone.is_aware`: `value.utcoffset() is not None`. -/
def is_aware (dt : DateTime) : Bool := dt.utcoffset.isSome

/-- `django.utils.timezone.make_aware(value, timezone.utc)`: attach UTC
to a naive value, leaving the civil fields unchanged. -/
def make_aware_utc (dt : DateTime) : DateTime :=
  { dt with utcoffset := some 0 }

/-- Take exactly `n` leading digits; `some (digits, rest)` on success. -/
def takeExactDigits : Nat → List Char → Option (List Char × List Char)
  | 0, rest => some ([], rest)
  | _ + 1, [] => none
  | n + 1, c :: rest =>
    if isDigitCh c then
      (takeExactDigits n rest).map (fun p => (c :: p.1, p.2))
    else none

/-- Take one or two leading digits, greedily (regex `\d{1,2}`). -/
def takeDigits12 : List Char → Option (Nat × List Char)
  | [] => none
  | [c] => if isDigitCh c then some (digitVal c, []) else none
  | c1 :: c2 :: rest =>
    if isDigitCh c1 then
      if isDigitCh c2 then some (digitsVal [c1, c2], rest)
      else some (digitVal c1, c2 :: rest)
    else none

/-- Take up to `n` leading digits, greedily (regex `\d{0,n}`). -/
def takeUpToDigits : Nat → List Char → (List Char × List Char)
  | 0, rest => ([], rest)
  | _ + 1, [] => ([], [])
  | n + 1, c :: rest =>
    if isDigitCh c then
      let p := takeUpToDigits n rest
      (c :: p.1, p.2)
    else ([], c :: rest)

/-- Expect the character `c` at the head. -/
def expectCh (c : Char) : List Char → Option (List Char)
  | [] => none
  | x :: r => if x = c then some r else none

/-- Expect the date/time separator (regex `[T ]`). -/
def expectDateSep : List Char → Option (List Char)
  | [] => none
  | x :: r => if x = 'T' || x = ' ' then some r else none

/-- The timezone suffix (regex `Z|[+-]\d{2}(?::?\d{2})?` anchored at
the end): `some none` for naive, `some (some minutes)` for a fixed
offset; `none` when the remainder matches nothing or the offset is
rejected by `get_fixed_timezone` (a day or more). -/
def parseTzSuffix : List Char → Option (Option Int)
  | [] => some none
  | ['Z'] => some (some 0)
  | c :: rest =>
    if c = '+' || c = '-' then
      match takeExactDigits 2 rest with
      | none => none
      | some (hh, r2) =>
        let finish (mm : Nat) : Option (Option Int) :=
          let mins : Int := 60 * digitsVal hh + mm
          let mins : Int := if c = '-' then -mins else mins
          if mins.natAbs < 1440 then some (some mins) else none
        match r2 with
        | [] => finish 0
        | ':' :: r3 =>
          match takeExactDigits 2 r3 with
          | some (mm, []) => finish (digitsVal mm)
          | _ => none
        | _ =>
          match takeExactDigits 2 r2 with
          | some (mm, []) => finish (digitsVal mm)
          | _ => none
    else none

/-- Days in a month of the proleptic Gregorian calendar. -/
def daysInMonth (y m : Nat) : Nat :=
  if m = 2 then
    if y % 4 = 0 && (y % 100 ≠ 0 || y % 400 = 0) then 29 else 28
  else if m = 4 || m = 6 || m = 9 || m = 11 then 30
  else 31

/-- `django.utils.dateparse.parse_datetime`, embedded as described
above: `none` covers both "regex does not match" and "`ValueError`",
since either makes the importer's extractor raise. -/
def parse_datetime (s : String) : Option DateTime := do
  let (yd, r) ← takeExactDigits 4 s.data
  let r ← expectCh '-' r
  let (mo, r) ← takeDigits12 r
  let r ← expectCh '-' r
  let (dy, r) ← takeDigits12 r
  let r ← expectDateSep r
  let (hr, r) ← takeDigits12 r
  let r ← expectCh ':' r
  let (mi, r) ← takeDigits12 r
  let (sec, micro, r) ←
    match r with
    | ':' :: r2 => do
      let (se, r3) ← takeDigits12 r2
      match r3 with
      | '.' :: r4 =>
        let (md, r5) := takeUpToDigits 6 r4
        if md.isEmpty then none
        else
          let (_, r6) := takeUpToDigits 6 r5
          some (se, digitsVal md * 10 ^ (6 - md.length), r6)
      | _ => pure (se, 0, r3)
    | _ => pure (0, 0, r)
  let off ← parseTzSuffix r
  let y := digitsVal yd
  if 1 ≤ y && 1 ≤ mo && mo ≤ 12 && 1 ≤ dy && dy ≤ daysInMonth y mo
      && hr ≤ 23 && mi ≤ 59 && sec ≤ 59 then
    some ⟨y, mo, dy, hr, mi, sec, micro, off⟩
  else none

/-- Days since 1970-01-01 of a Gregorian civil date
(standard civil-from-days inversion; all divisions act on
nonnegative numbers for the years `parse_datetime` can produce). -/
def daysFromCivil (y m d : Nat) : Int :=
  let yy : Int := if m ≤ 2 then (y : Int) - 1 else (y : Int)
  let era : Int := yy / 400
  let yoe : Int := yy - era * 400
  let mp : Int := if m ≤ 2 then (m : Int) + 9 else (m : Int) - 3
  let doy : Int := (153 * mp + 2) / 5 + (d : Int) - 1
  let doe : Int := yoe * 365 + yoe / 4 - yoe / 100 + doy
  era * 146097 + doe - 719468

/-- The instant denoted by a `DateTime`, in microseconds since the Unix
epoch; a naive value is read as if its offset were zero.  Two aware
values denote the same point in time iff their `toInstant` agree. -/
def toInstant (dt : DateTime) : Int :=
  (daysFromCivil dt.year dt.month dt.day * 86400
    + (dt.hour : Int) * 3600 + (dt.minute : Int) * 60 + (dt.second : Int)
    - dt.utcoffset.getD 0 * 60) * 1000000 + (dt.microsecond : Int)

/-! ## XML nodes

The importer walks libxml2 nodes (`xml_elt.children` is the first child,
`child.next` the following sibling).  The embedding keeps, per node,
exactly what the importer reads: the element name, the XML attributes in
document order, the text content, and the ordered child list (which, as
in libxml2, may contain non-element nodes such as text nodes — they
simply carry names like `"text"` and fall into the final `else` of the
scan loop). -/

/-- An XML node: name, attributes, text content, children. -/
inductive XmlNode where
  | mk : String → List (String × String) → String → List XmlNode → XmlNode

/-- Element name of the node. -/
def XmlNode.name : XmlNode → String
  | .mk n _ _ _ => n

/-- XML attributes of the node, in document order. -/
def XmlNode.attrs : XmlNode → List (String × String)
  | .mk _ a _ _ => a

/-- Text content of the node. -/
def XmlNode.content : XmlNode → String
  | .mk _ _ c _ => c

/-- Ordered child list of the node. -/
def XmlNode.children : XmlNode → List XmlNode
  | .mk _ _ _ ch => ch

/-- `dingos.core.xml_utils.extract_attributes(node, prefix_key_char)`:
the attribute mapping of the node, each key prefixed with
`prefix_key_char` (the importer passes `'@'` or `''`). -/
def extract_attributes (node : XmlNode) (prefix_key_char : String) :
    List (String × String) :=
  node.attrs.map (fun p => (prefix_key_char ++ p.1, p.2))

/-- Python `dict.get(k)` on an attribute mapping: the first value bound
to `k`, else `None`. -/
def attrsGet (attrs : List (String × String)) (k : String) : Option String :=
  (attrs.find? (fun p => p.1 == k)).map (fun p => p.2)

/-! ## `id_and_revision_extractor` (importer.py lines 138-213) -/

/-- The dictionary `{'id': ..., 'timestamp': ...}` built by
`id_and_revision_extractor`. -/
structure IdRev where
  id : Option String
  timestamp : Option DateTime
deriving DecidableEq, Repr

/-- Line 195: `'%s:%s' % (attributes.get('name'), child.content)` where
`attributes = extract_attributes(child, prefix_key_char='')`. -/
def incidentIdOf (child : XmlNode) : String :=
  pyStrOfOpt (attrsGet (extract_attributes child "") "name") ++ ":" ++ child.content

/-- Lines 199-204: parse result made timezone-aware; a naive parse is
interpreted as UTC. -/
def reportTimeAware (naive : DateTime) : DateTime :=
  if is_aware naive then naive else make_aware_utc naive

/-- The `while child:` loop of `id_and_revision_extractor`
(lines 186-211), over the remaining siblings.  `none` = an exception
escapes (an unparseable `ReportTime`: `parse_datetime` returns `None`
and `timezone.is_aware(None)` raises, or `parse_datetime` itself raises
`ValueError`). -/
def scanChildren : List XmlNode → Bool → Bool → IdRev → Option IdRev
  | [], _, _, result => some result
  | child :: rest, found_id, found_ts, result =>
    if child.name = "IncidentID" then
      let result := { result with id := some (incidentIdOf child) }
      if found_ts then some result
      else scanChildren rest true found_ts result
    else if child.name = "ReportTime" then
      match parse_datetime child.content with
      | none => none
      | some naive =>
        let result := { result with timestamp := some (reportTimeAware naive) }
        if found_id then some result
        else scanChildren rest found_id true result
    else
      if found_id && found_ts then some result
      else scanChildren rest found_id found_ts result

/-- `iodef_Import.id_and_revision_extractor`: `{'id': None,
'timestamp': None}` for non-`Incident` nodes, otherwise the result of
scanning the children. -/
def id_and_revision_extractor (xml_elt : XmlNode) : Option IdRev :=
  if xml_elt.name = "Incident" then
    scanChildren xml_elt.children false false ⟨none, none⟩
  else some ⟨none, none⟩

/-! ## `embedding_pred` (importer.py lines 106-135) -/

/-- The dynamically-typed return value of `embedding_pred`: a string
(an object-type hint) or a boolean. -/
inductive PyEmbedVal where
  | ofString : String → PyEmbedVal
  | ofBool : Bool → PyEmbedVal
deriving DecidableEq, Repr

/-- `iodef_Import.embedding_pred`: children named `Incident` are
extracted (labelled with the child's name); everything else stays
inline (`False`).  The `extract_attributes(parent, ...)` call of
line 130 is dead code and is kept as a discarded binding. -/
def embedding_pred (parent child : XmlNode)
    (ns_mapping : List (Option String × String)) : PyEmbedVal :=
  let _values := extract_attributes parent "@"
  if child.name = "Incident" then .ofString child.name
  else .ofBool false

/-! ## Namespace pattern matching (importer.py lines 89-92)

`RE_LIST_NS_TYPE_FROM_NS_URL` holds the single compiled pattern

`(?P<family_ns>urn:ietf:params:xml:ns:(?P<family>(?P<family_tag>[^-]*)))-(?P<revision>.*)`

applied with `re.match` (anchored at the start, not at the end) by
`dingos.core.utilities.search_by_re_list`, which returns the group
dictionary of the first pattern that matches, else `None`.  Matching is
deterministic: `[^-]*` runs to the first `-` after the literal prefix
(it cannot cross a `-`), the `-` is consumed, and `.*` takes the rest
of the line (a `.` never matches a newline). -/

/-- Group dictionary of the namespace pattern. -/
structure NsInfo where
  family_ns : String
  family : String
  family_tag : String
  revision : String
deriving DecidableEq, Repr

/-- The literal part of the pattern. -/
def iodefNsUrlPat : String := "urn:ietf:params:xml:ns:"

/-- The compiled pattern of `RE_LIST_NS_TYPE_FROM_NS_URL`, as the
function taking a subject string to its group dictionary. -/
def re_ns_type_from_ns_url (s : String) : Option NsInfo :=
  match stripStart iodefNsUrlPat.data s.data with
  | none => none
  | some rest =>
    match breakAtCh '-' rest with
    | none => none
    | some (fam, after) =>
      let family := String.mk fam
      some { family_ns := iodefNsUrlPat ++ family
             family := family
             family_tag := family
             revision := String.mk (takeToNewline after) }

/-- `dingos.core.utilities.search_by_re_list`: the group dictionary of
the first matching pattern, else `None`. -/
def search_by_re_list (re_list : List (String → Option NsInfo)) (s : String) :
    Option NsInfo :=
  match re_list with
  | [] => none
  | r :: rest =>
    match r s with
    | some m => some m
    | none => search_by_re_list rest s

/-- `iodef_Import.RE_LIST_NS_TYPE_FROM_NS_URL` (lines 89-92). -/
def RE_LIST_NS_TYPE_FROM_NS_URL : List (String → Option NsInfo) :=
  [re_ns_type_from_ns_url]

/-! ## Fact handlers (importer.py lines 252-345) -/

/-- A fact dictionary, e.g. `{'node_id': 'N001:L000:N000:A000', 'term':
'Hashes/Hash/Simple_Hash_Value', 'attribute': 'condition' / False,
'value': u'Equals'}`; the `attribute` entry is either a string or
`False` (embedded as `none`; the field is named `attr` because
`attribute` is a Lean keyword). -/
structure FactDict where
  node_id : String
  term : String
  attr : Option String
  value : String
deriving DecidableEq, Repr

/-- The slice of `add_fact_kargs` the iodef handlers touch: the list of
values of the fact to be generated. -/
structure AddFactKargs where
  values : List String
deriving DecidableEq, Repr

/-- The predicate paired with the portlist handler in
`fact_handler_list` (line 324):
`lambda fact, attr_info: fact['term'].split('/')[-1] == "Portlist"`. -/
def portlist_fact_pred (fact : FactDict)
    (attr_info : List (String × String)) : Bool :=
  (pySplit fact.term '/').getLastD "" == "Portlist"

/-- `iodef_Import.iodef_portlist_fact_handler` (lines 326-345): replaces
the values with the comma-split of the fact's value and returns `True`
(the fact is generated). -/
def iodef_portlist_fact_handler (enrichment : Unit) (fact : FactDict)
    (attr_info : List (String × String)) (add_fact_kargs : AddFactKargs) :
    AddFactKargs × Bool :=
  ({ add_fact_kargs with values := pySplit fact.value ',' }, true)

/-- `iodef_Import.fact_handler_list` (lines 252-324): one
(predicate, handler) pair. -/
def fact_handler_list :
    List ((FactDict → List (String × String) → Bool)
      × (Unit → FactDict → List (String × String) → AddFactKargs →
          AddFactKargs × Bool)) :=
  [(portlist_fact_pred, iodef_portlist_fact_handler)]

/-! ## `attr_ignore_predicate` (importer.py lines 348-374) -/

/-- `iodef_Import.attr_ignore_predicate`: `True` when
`'@' in fact_dict['attribute']` or `'dtype' in fact_dict['attribute']`
(Python substring containment), else `False`.  The predicate is only
called for attribute facts, where the attribute entry is a string; on
the `False` variant (`none`) the Python `in` operator would raise
`TypeError`, embedded as `none`. -/
def attr_ignore_predicate (fact_dict : FactDict) : Option Bool :=
  match fact_dict.attr with
  | none => none
  | some a =>
    if strContainsStr a "@" then some true
    else if strContainsStr a "dtype" then some true
    else some false

/-! ## `xml_import` (importer.py lines 431-575)

The XML-to-dictionary step itself is
`mantis_core.import_handling.MantisImporter.xml_import`, external to the
repository; this embedding starts from its documented result (lines
483-498): the top-level id-and-revision info, element name and
dictionary representation, plus the list of embedded objects.  Of the
dictionary representation the importer reads only the internal `'@@ns'`
key (the namespace prefix of the element); the rest is carried opaquely
into `create_iobject` as `iobject_data`.  `self.namespace_dict`, passed
to (and filled by) the external import, is embedded as the association
list it holds after that call; `self.create_timestamp` (set by
`__init__`, which `xml_import` re-runs first) is a parameter.
`MantisImporter.create_iobject` is external; the embedding records the
keyword arguments each call receives. -/

/-- The dictionary representation of an element: the internal `'@@ns'`
value (namespace prefix, possibly `None`) and the remaining content,
carried opaquely. -/
structure EltDict where
  ns : Option String
  rest : List (String × String)
deriving DecidableEq, Repr

/-- One entry of the `embedded_objects` list of the external import
result. -/
structure EmbeddedObject where
  id_and_rev_info : IdRev
  elt_name : String
  dict_repr : EltDict
deriving DecidableEq, Repr

/-- The result dictionary of `MantisImporter.xml_import`
(importer.py lines 483-498; `unprocessed` and `file_content` are unused
by this importer). -/
structure ImportResult where
  id_and_rev_info : IdRev
  elt_name : String
  dict_repr : EltDict
  embedded_objects : List EmbeddedObject
deriving DecidableEq, Repr

/-- `self.namespace_dict`: prefix (possibly `None`) to namespace URI. -/
abbrev NsDict := List (Option String × String)

/-- Python `dict.get(k)` on a namespace dictionary. -/
def nsGet (d : NsDict) (k : Option String) : Option String :=
  (d.find? (fun p => p.1 == k)).map (fun p => p.2)

/-- Python `dict.get(k, default)` on a namespace dictionary. -/
def nsGetD (d : NsDict) (k : Option String) (dflt : String) : String :=
  (nsGet d k).getD dflt

/-- `dingos.DINGOS_NAMESPACE_URI` — a constant of the external dingos
framework (not part of this repository); `__init__` (line 53) seeds
`self.namespace_dict` with it under the `None` prefix.  Only the fact
that it is an `http`-scheme URI — in particular not of the
`urn:ietf:params:xml:ns:...-...` shape — is relied on below. -/
def DINGOS_NAMESPACE_URI : String := "http://dingos.siemens.com"

/-- `dingos.DINGOS_DEFAULT_ID_NAMESPACE_URI` — external framework
constant (line 67); stored and, as proved below, never read again. -/
def DINGOS_DEFAULT_ID_NAMESPACE_URI : String :=
  "http://dingos.siemens.com/ids"

/-- `dingos.DINGOS_GENERIC_FAMILY_NAME` — external framework constant,
used as the fallback at line 554. -/
def DINGOS_GENERIC_FAMILY_NAME : String := "generic"

/-- `self.namespace_dict` as `__init__` (line 53) leaves it:
`{None: DINGOS_NAMESPACE_URI}`. -/
def initNamespaceDict : NsDict := [(none, DINGOS_NAMESPACE_URI)]

/-- `self.iobject_family_name` after lines 97 and 513-515: the matched
family, or the `'iodef'` default when no pattern matches. -/
def familyNameOf (default_ns : String) : String :=
  match search_by_re_list RE_LIST_NS_TYPE_FROM_NS_URL default_ns with
  | some info => info.family
  | none => "iodef"

/-- `self.iobject_family_revision_name` after lines 98 and 516-517: the
matched revision, or the `''` default when no pattern matches. -/
def familyRevisionOf (default_ns : String) : String :=
  match search_by_re_list RE_LIST_NS_TYPE_FROM_NS_URL default_ns with
  | some info => info.revision
  | none => ""

/-- `iobject_type_namespace_uri` of one loop iteration (lines 542-554):
the matched `family_ns` when truthy, else the namespace of the record's
own `'@@ns'` prefix with `DINGOS_GENERIC_FAMILY_NAME` as default. -/
def typeNsUriFor (default_ns : String) (d : NsDict) (ed : EltDict) : String :=
  let ns_info := search_by_re_list RE_LIST_NS_TYPE_FROM_NS_URL default_ns
  let fromMatch : Option String := ns_info.map (fun i => i.family_ns)
  if pyTruthyStr fromMatch then fromMatch.getD ""
  else nsGetD d ed.ns DINGOS_GENERIC_FAMILY_NAME

/-- `iobject_type_revision_name` of one loop iteration (lines 545-551):
`None` unless a pattern matched. -/
def typeRevisionFor (default_ns : String) : Option String :=
  (search_by_re_list RE_LIST_NS_TYPE_FROM_NS_URL default_ns).map
    (fun i => i.revision)

/-- The `logger.error` message of line 557. -/
def logMsgFor (elt_name : String) : String :=
  "Attempt to import object (element name " ++ elt_name
    ++ ") without id -- object is ignored"

/-- The keyword arguments of one `MantisImporter.create_iobject` call
(lines 560-575; the hook configuration and the namespace dictionary,
passed verbatim, are omitted). -/
structure IobjectArgs where
  iobject_family_name : String
  iobject_family_revision_name : String
  iobject_type_name : String
  iobject_type_namespace_uri : String
  iobject_type_revision_name : Option String
  iobject_data : EltDict
  uid : String
  identifier_ns_uri : String
  timestamp : DateTime
  create_timestamp : DateTime
  markings : List String
deriving DecidableEq, Repr

/-- The `create_iobject` arguments built for one record with (truthy)
identifier `s` whose second `:`-segment is `seg1` (lines 535-575):
`uid` is `s.split(":")[0]` and `identifier_ns_uri` is
`s.split(":")[1]`. -/
def mkIobjectArgs (default_ns : String) (d : NsDict) (create_ts : DateTime)
    (mks : List String) (idrev : IdRev) (en : String) (ed : EltDict)
    (s seg1 : String) : IobjectArgs :=
  { iobject_family_name := familyNameOf default_ns
    iobject_family_revision_name := familyRevisionOf default_ns
    iobject_type_name := en
    iobject_type_namespace_uri := typeNsUriFor default_ns d ed
    iobject_type_revision_name := typeRevisionFor default_ns
    iobject_data := ed
    uid := (pySplit s ':').headD ""
    identifier_ns_uri := seg1
    timestamp := idrev.timestamp.getD create_ts
    create_timestamp := create_ts
    markings := mks }

/-- The `for ... in pending_stack` loop (lines 532-575): for each record,
a falsy `id` is logged and skipped (`continue`), otherwise
`create_iobject` is called; `s.split(":")[1]` raises `IndexError`
(embedded as `none` for the whole call) when the identifier has no
second segment.  Returns the log messages and the `create_iobject`
calls, each in pending order. -/
def processPending (default_ns : String) (d : NsDict) (create_ts : DateTime)
    (mks : List String) :
    List (IdRev × String × EltDict) → Option (List String × List IobjectArgs)
  | [] => some ([], [])
  | (idrev, en, ed) :: rest =>
    if pyTruthyStr idrev.id then
      let s := idrev.id.getD ""
      match (pySplit s ':').get? 1 with
      | none => none
      | some seg1 =>
        match processPending default_ns d create_ts mks rest with
        | none => none
        | some (logs, objs) =>
          some (logs, mkIobjectArgs default_ns d create_ts mks idrev en ed s seg1 :: objs)
    else
      match processPending default_ns d create_ts mks rest with
      | none => none
      | some (logs, objs) => some (logMsgFor en :: logs, objs)

/-- `pending_stack` (lines 519-529): the top-level record first, then
the embedded objects in document order. -/
def pendingOf (r : ImportResult) : List (IdRev × String × EltDict) :=
  (r.id_and_rev_info, r.elt_name, r.dict_repr)
    :: r.embedded_objects.map (fun e => (e.id_and_rev_info, e.elt_name, e.dict_repr))

/-- `iodef_Import.xml_import`, from the external import result onward
(lines 455-575).  Line 468-469 stores the `identifier_ns_uri` parameter
on the instance when truthy; the binding is discarded because nothing
reads it afterwards.  Line 506 looks the `'@@ns'` prefix up in the
namespace dictionary; a prefix absent from the dictionary would hand
`None` to `search_by_re_list`, whose `re.match` would raise `TypeError`
(embedded as `none`). -/
def xml_import (import_result : ImportResult) (namespace_dict : NsDict)
    (create_timestamp : DateTime) (markings : List String)
    (identifier_ns_uri : Option String) :
    Option (List String × List IobjectArgs) :=
  let _self_identifier_ns_uri :=
    if pyTruthyStr identifier_ns_uri then identifier_ns_uri.getD ""
    else DINGOS_DEFAULT_ID_NAMESPACE_URI
  match nsGet namespace_dict import_result.dict_repr.ns with
  | none => none
  | some default_ns =>
    processPending default_ns namespace_dict create_timestamp markings
      (pendingOf import_result)

/-- The record handed to `create_iobject` for one pending entry, if any:
`none` both for a falsy identifier (skipped, line 556-558) and for an
identifier without a second `:`-segment (where the call itself would
raise).  `processPending` persists exactly these. -/
def createdFor (default_ns : String) (d : NsDict) (create_ts : DateTime)
    (mks : List String) (e : IdRev × String × EltDict) : Option IobjectArgs :=
  if pyTruthyStr e.1.id then
    ((pySplit (e.1.id.getD "") ':').get? 1).map
      (fun seg1 => mkIobjectArgs default_ns d create_ts mks e.1 e.2.1 e.2.2
        (e.1.id.getD "") seg1)
  else none

/-- The log message produced for one pending entry, if any. -/
def skippedLogFor (e : IdRev × String × EltDict) : Option String :=
  if pyTruthyStr e.1.id then none else some (logMsgFor e.2.1)

/-- An `Incident` node with two `IncidentID` children before the
`ReportTime` child. -/
def c1Node : XmlNode :=
  .mk "Incident" [] ""
    [.mk "IncidentID" [("name", "a")] "1" [],
     .mk "IncidentID" [("name", "b")] "2" [],
     .mk "ReportTime" [] "2006-06-08T05:44:53-05:00" []]

/-- The unique-`IncidentID` children used by the C1 witness. -/
def c1WitnessIdNode : XmlNode :=
  .mk "IncidentID" [("name", "csirt.example.com")] "908711" []

/-- The `ReportTime` child used by the C1 witness. -/
def c1WitnessRtNode : XmlNode :=
  .mk "ReportTime" [] "2006-06-08T05:44:53-05:00" []

/-- The minimal `Incident` of the claim: `IncidentID
name="csirt.example.com"` with text `908711`, and `ReportTime` with
text `2006-06-08T05:44:53-05:00`. -/
def c2Node : XmlNode :=
  .mk "Incident" [("purpose", "mitigation")] ""
    [.mk "IncidentID" [("name", "csirt.example.com")] "908711" [],
     .mk "ReportTime" [] "2006-06-08T05:44:53-05:00" []]

/-- A fixed creation timestamp for concrete instances
(`self.create_timestamp` is `timezone.now()` at `__init__` time). -/
def exampleCreateTs : DateTime := ⟨2013, 1, 1, 0, 0, 0, 0, some 0⟩

/-- A concrete external import result: an `IODEF-Document` top level
(no identifier, as always for IODEF) with one embedded `Incident`. -/
def exampleImportResult : ImportResult :=
  { id_and_rev_info := ⟨none, none⟩
    elt_name := "IODEF-Document"
    dict_repr := ⟨none, []⟩
    embedded_objects :=
      [⟨⟨some "csirt.example.com:908711", none⟩, "Incident", ⟨none, []⟩⟩] }

/-- A concrete `Portlist` fact. -/
def c6FactPort : FactDict :=
  ⟨"N001:L000:N000", "Incident/EventData/Flow/System/Service/Portlist",
    none, "60524,60526,60527,60531"⟩

/-- A concrete fact whose term does not end in `Portlist`. -/
def c6FactOther : FactDict :=
  ⟨"N001:L000:N001", "Incident/Description", none, "a,b"⟩

/-- The log list `xml_import` produces on `exampleImportResult`. -/
def exampleLogs : List String := [logMsgFor "IODEF-Document"]

/-- The `create_iobject` calls `xml_import` produces on
`exampleImportResult`. -/
def exampleObjs : List IobjectArgs :=
  [mkIobjectArgs DINGOS_NAMESPACE_URI initNamespaceDict exampleCreateTs []
    ⟨some "csirt.example.com:908711", none⟩ "Incident" ⟨none, []⟩
    "csirt.example.com:908711" "908711"]

/-! ## Lemmas about the extractor scan loop -/

/-- Unfolding: a scanned `IncidentID` child. -/
theorem scanChildren_cons_id (c : XmlNode) (rest : List XmlNode)
    (fid fts : Bool) (res : IdRev) (hc : c.name = "IncidentID") :
    scanChildren (c :: rest) fid fts res =
      if fts then some { res with id := some (incidentIdOf c) }
      else scanChildren rest true fts { res with id := some (incidentIdOf c) } := by
  simp [scanChildren, hc]

/-- Unfolding: a scanned `ReportTime` child. -/
theorem scanChildren_cons_rt (c : XmlNode) (rest : List XmlNode)
    (fid fts : Bool) (res : IdRev) (hc : ¬c.name = "IncidentID")
    (hc2 : c.name = "ReportTime") (dt : DateTime)
    (hdt : parse_datetime c.content = some dt) :
    scanChildren (c :: rest) fid fts res =
      if fid then some { res with timestamp := some (reportTimeAware dt) }
      else scanChildren rest fid true
        { res with timestamp := some (reportTimeAware dt) } := by
  simp [scanChildren, hc, hc2, hdt]

/-- Unfolding: a scanned child of any other name. -/
theorem scanChildren_cons_other (c : XmlNode) (rest : List XmlNode)
    (fid fts : Bool) (res : IdRev) (hc : ¬c.name = "IncidentID")
    (hc2 : ¬c.name = "ReportTime") :
    scanChildren (c :: rest) fid fts res =
      if fid && fts then some res else scanChildren rest fid fts res := by
  simp [scanChildren, hc, hc2]

/-- When every `ReportTime` child parses, the scan returns normally;
`some` fields are never un-set, and a scanned `IncidentID` /
`ReportTime` populates the corresponding field.  The two flag
hypotheses are the loop invariant: a raised flag means the field is
already populated. -/
theorem scan_total (l : List XmlNode) (fid fts : Bool) (res : IdRev)
    (hrt : ∀ c ∈ l, c.name = "ReportTime" → (parse_datetime c.content).isSome)
    (hinv1 : fid = true → res.id.isSome)
    (hinv2 : fts = true → res.timestamp.isSome) :
    ∃ out, scanChildren l fid fts res = some out
      ∧ (res.id.isSome → out.id.isSome)
      ∧ (res.timestamp.isSome → out.timestamp.isSome)
      ∧ ((fid = true ∨ ∃ c ∈ l, c.name = "IncidentID") → out.id.isSome)
      ∧ ((fts = true ∨ ∃ c ∈ l, c.name = "ReportTime") → out.timestamp.isSome) := by
  induction l generalizing fid fts res with
  | nil =>
    refine ⟨res, rfl, fun h => h, fun h => h, ?_, ?_⟩
    · rintro (h | ⟨c, hc, _⟩)
      · exact hinv1 h
      · cases hc
    · rintro (h | ⟨c, hc, _⟩)
      · exact hinv2 h
      · cases hc
  | cons c rest ih =>
    by_cases hc : c.name = "IncidentID"
    · rw [scanChildren_cons_id c rest fid fts res hc]
      cases fts with
      | true =>
        refine ⟨{ res with id := some (incidentIdOf c) }, by simp,
          fun _ => rfl, fun h => h, fun _ => rfl, fun _ => hinv2 rfl⟩
      | false =>
        obtain ⟨out, heq, m1, m2, p1, p2⟩ :=
          ih true false { res with id := some (incidentIdOf c) }
            (fun x hx => hrt x (List.mem_cons_of_mem c hx))
            (fun _ => rfl) (fun h => by cases h)
        rw [if_neg (by simp)]
        refine ⟨out, heq, fun _ => p1 (Or.inl rfl), fun h => m2 h,
          fun _ => p1 (Or.inl rfl), ?_⟩
        rintro (h | ⟨x, hx, hxn⟩)
        · cases h
        · rcases List.mem_cons.mp hx with h | h
          · subst h; rw [hc] at hxn; exact absurd hxn (by decide)
          · exact p2 (Or.inr ⟨x, h, hxn⟩)
    · by_cases hc2 : c.name = "ReportTime"
      · obtain ⟨dt, hdt⟩ := Option.isSome_iff_exists.mp
          (hrt c (List.mem_cons_self c rest) hc2)
        rw [scanChildren_cons_rt c rest fid fts res hc hc2 dt hdt]
        cases fid with
        | true =>
          refine ⟨{ res with timestamp := some (reportTimeAware dt) }, by simp,
            fun h => h, fun _ => rfl, fun _ => hinv1 rfl, fun _ => rfl⟩
        | false =>
          obtain ⟨out, heq, m1, m2, p1, p2⟩ :=
            ih false true { res with timestamp := some (reportTimeAware dt) }
              (fun x hx => hrt x (List.mem_cons_of_mem c hx))
              (fun h => by cases h) (fun _ => rfl)
          rw [if_neg (by simp)]
          refine ⟨out, heq, fun h => m1 h, fun _ => p2 (Or.inl rfl), ?_,
            fun _ => p2 (Or.inl rfl)⟩
          rintro (h | ⟨x, hx, hxn⟩)
          · cases h
          · rcases List.mem_cons.mp hx with h | h
            · subst h; exact absurd hxn hc
            · exact p1 (Or.inr ⟨x, h, hxn⟩)
      · rw [scanChildren_cons_other c rest fid fts res hc hc2]
        rcases hb : fid && fts with _ | _
        · obtain ⟨out, heq, m1, m2, p1, p2⟩ :=
            ih fid fts res (fun x hx => hrt x (List.mem_cons_of_mem c hx))
              hinv1 hinv2
          rw [if_neg (by simp [hb])]
          refine ⟨out, heq, m1, m2, ?_, ?_⟩
          · rintro (h | ⟨x, hx, hxn⟩)
            · exact p1 (Or.inl h)
            · rcases List.mem_cons.mp hx with h | h
              · subst h; exact absurd hxn hc
              · exact p1 (Or.inr ⟨x, h, hxn⟩)
          · rintro (h | ⟨x, hx, hxn⟩)
            · exact p2 (Or.inl h)
            · rcases List.mem_cons.mp hx with h | h
              · subst h; exact absurd hxn hc2
              · exact p2 (Or.inr ⟨x, h, hxn⟩)
        · have hfid : fid = true := ((Bool.and_eq_true fid fts).mp hb).1
          have hfts : fts = true := ((Bool.and_eq_true fid fts).mp hb).2
          rw [if_pos (by simp [hb])]
          exact ⟨res, rfl, fun h => h, fun h => h, fun _ => hinv1 hfid,
            fun _ => hinv2 hfts⟩

/-- Early exit: once the scanned part of the child list contains both
an `IncidentID` and a `ReportTime` (and no scanned `ReportTime` fails
to parse), siblings beyond it never influence the result. -/
theorem scan_append (l post : List XmlNode) (fid fts : Bool) (res : IdRev)
    (hrt : ∀ c ∈ l, c.name = "ReportTime" → (parse_datetime c.content).isSome)
    (hid : fid = true ∨ ∃ c ∈ l, c.name = "IncidentID")
    (hts : fts = true ∨ ∃ c ∈ l, c.name = "ReportTime")
    (hnb : ¬(fid = true ∧ fts = true)) :
    scanChildren (l ++ post) fid fts res = scanChildren l fid fts res := by
  induction l generalizing fid fts res with
  | nil =>
    exfalso
    refine hnb ⟨?_, ?_⟩
    · rcases hid with h | ⟨c, hc, _⟩
      · exact h
      · cases hc
    · rcases hts with h | ⟨c, hc, _⟩
      · exact h
      · cases hc
  | cons c rest ih =>
    rw [List.cons_append]
    by_cases hc : c.name = "IncidentID"
    · rw [scanChildren_cons_id c (rest ++ post) fid fts res hc,
        scanChildren_cons_id c rest fid fts res hc]
      cases fts with
      | true => rfl
      | false =>
        rw [if_neg (by simp), if_neg (by simp)]
        refine ih true false _ (fun x hx => hrt x (List.mem_cons_of_mem c hx))
          (Or.inl rfl) ?_ (by simp)
        rcases hts with h | ⟨x, hx, hxn⟩
        · cases h
        · rcases List.mem_cons.mp hx with h | h
          · subst h; rw [hc] at hxn; exact absurd hxn (by decide)
          · exact Or.inr ⟨x, h, hxn⟩
    · by_cases hc2 : c.name = "ReportTime"
      · obtain ⟨dt, hdt⟩ := Option.isSome_iff_exists.mp
          (hrt c (List.mem_cons_self c rest) hc2)
        rw [scanChildren_cons_rt c (rest ++ post) fid fts res hc hc2 dt hdt,
          scanChildren_cons_rt c rest fid fts res hc hc2 dt hdt]
        cases fid with
        | true => rfl
        | false =>
          rw [if_neg (by simp), if_neg (by simp)]
          refine ih false true _ (fun x hx => hrt x (List.mem_cons_of_mem c hx))
            ?_ (Or.inl rfl) (by simp)
          rcases hid with h | ⟨x, hx, hxn⟩
          · cases h
          · rcases List.mem_cons.mp hx with h | h
            · subst h; exact absurd hxn hc
            · exact Or.inr ⟨x, h, hxn⟩
      · have hb : (fid && fts) = false := by
          rcases fid with _ | _ <;> rcases fts with _ | _ <;> simp_all
        rw [scanChildren_cons_other c (rest ++ post) fid fts res hc hc2,
          scanChildren_cons_other c rest fid fts res hc hc2,
          if_neg (by simp [hb]), if_neg (by simp [hb])]
        refine ih fid fts res (fun x hx => hrt x (List.mem_cons_of_mem c hx))
          ?_ ?_ hnb
        · rcases hid with h | ⟨x, hx, hxn⟩
          · exact Or.inl h
          · rcases List.mem_cons.mp hx with h | h
            · subst h; exact absurd hxn hc
            · exact Or.inr ⟨x, h, hxn⟩
        · rcases hts with h | ⟨x, hx, hxn⟩
          · exact Or.inl h
          · rcases List.mem_cons.mp hx with h | h
            · subst h; exact absurd hxn hc2
            · exact Or.inr ⟨x, h, hxn⟩

/-- Scanning a sibling stretch without any `IncidentID` (all
`ReportTime`s parseable) never changes the `id` field. -/
theorem scan_id_frozen (l : List XmlNode) (fid fts : Bool) (res : IdRev)
    (hni : ∀ c ∈ l, c.name ≠ "IncidentID")
    (hrt : ∀ c ∈ l, c.name = "ReportTime" → (parse_datetime c.content).isSome) :
    ∃ out, scanChildren l fid fts res = some out ∧ out.id = res.id := by
  induction l generalizing fid fts res with
  | nil => exact ⟨res, rfl, rfl⟩
  | cons c rest ih =>
    have hc : ¬c.name = "IncidentID" := hni c (List.mem_cons_self c rest)
    by_cases hc2 : c.name = "ReportTime"
    · obtain ⟨dt, hdt⟩ := Option.isSome_iff_exists.mp
        (hrt c (List.mem_cons_self c rest) hc2)
      rw [scanChildren_cons_rt c rest fid fts res hc hc2 dt hdt]
      cases fid with
      | true =>
        exact ⟨{ res with timestamp := some (reportTimeAware dt) }, by simp, rfl⟩
      | false =>
        rw [if_neg (by simp)]
        exact ih false true _ (fun x hx => hni x (List.mem_cons_of_mem c hx))
          (fun x hx => hrt x (List.mem_cons_of_mem c hx))
    · rw [scanChildren_cons_other c rest fid fts res hc hc2]
      rcases hb : fid && fts with _ | _
      · rw [if_neg (by simp [hb])]
        exact ih fid fts res (fun x hx => hni x (List.mem_cons_of_mem c hx))
          (fun x hx => hrt x (List.mem_cons_of_mem c hx))
      · rw [if_pos (by simp [hb])]
        exact ⟨res, rfl, rfl⟩

/-- When the child list contains exactly one `IncidentID`, the scan
populates `id` from it (all `ReportTime`s assumed parseable). -/
theorem scan_unique_id (l1 : List XmlNode) (cid : XmlNode) (l2 : List XmlNode)
    (fts : Bool) (res : IdRev)
    (hcid : cid.name = "IncidentID")
    (h1 : ∀ c ∈ l1, c.name ≠ "IncidentID")
    (h2 : ∀ c ∈ l2, c.name ≠ "IncidentID")
    (hrt : ∀ c ∈ l1 ++ cid :: l2, c.name = "ReportTime" →
      (parse_datetime c.content).isSome) :
    ∃ out, scanChildren (l1 ++ cid :: l2) false fts res = some out
      ∧ out.id = some (incidentIdOf cid) := by
  induction l1 generalizing fts res with
  | nil =>
    rw [List.nil_append, scanChildren_cons_id cid l2 false fts res hcid]
    cases fts with
    | true =>
      exact ⟨{ res with id := some (incidentIdOf cid) }, by simp, rfl⟩
    | false =>
      rw [if_neg (by simp)]
      obtain ⟨out, heq, hout⟩ := scan_id_frozen l2 true false
        { res with id := some (incidentIdOf cid) } h2
        (fun x hx => hrt x (by simp [hx]))
      exact ⟨out, heq, hout⟩
  | cons c l1x ih =>
    have hc : ¬c.name = "IncidentID" := h1 c (List.mem_cons_self c l1x)
    rw [List.cons_append]
    by_cases hc2 : c.name = "ReportTime"
    · obtain ⟨dt, hdt⟩ := Option.isSome_iff_exists.mp
        (hrt c (by simp) hc2)
      rw [scanChildren_cons_rt c (l1x ++ cid :: l2) false fts res hc hc2 dt hdt,
        if_neg (by simp)]
      exact ih true _ (fun x hx => h1 x (List.mem_cons_of_mem c hx))
        (fun x hx => hrt x (by simp [hx]))
    · rw [scanChildren_cons_other c (l1x ++ cid :: l2) false fts res hc hc2,
        if_neg (by simp)]
      exact ih fts res (fun x hx => h1 x (List.mem_cons_of_mem c hx))
        (fun x hx => hrt x (by simp [hx]))

/-! ## Lemmas about the pending-stack loop -/

/-- When every truthy identifier in the pending list has a second
`:`-segment, the loop returns normally, logs exactly the records with
falsy identifiers, and calls `create_iobject` exactly for the records
with truthy identifiers — both in pending order. -/
theorem processPending_spec (default_ns : String) (d : NsDict) (cts : DateTime)
    (mks : List String) (l : List (IdRev × String × EltDict))
    (hsafe : ∀ e ∈ l, pyTruthyStr e.1.id = true →
      ((pySplit (e.1.id.getD "") ':').get? 1).isSome) :
    processPending default_ns d cts mks l
      = some (l.filterMap skippedLogFor,
              l.filterMap (createdFor default_ns d cts mks)) := by
  induction l with
  | nil => simp [processPending]
  | cons e rest ih =>
    obtain ⟨idrev, en, ed⟩ := e
    have ihr := ih (fun x hx hb => hsafe x (List.mem_cons_of_mem _ hx) hb)
    by_cases ht : pyTruthyStr idrev.id = true
    · obtain ⟨seg1, hseg⟩ := Option.isSome_iff_exists.mp
        (hsafe (idrev, en, ed) (List.mem_cons_self _ rest) ht)
      have hseg2 : (pySplit (idrev.id.getD "") ':')[1]? = some seg1 := by
        simpa using hseg
      simp [processPending, ht, hseg2, ihr, skippedLogFor, createdFor]
    · simp [processPending, ht, ihr, skippedLogFor, createdFor]

/-- Every record the loop hands to `create_iobject` stems from a pending
entry with a (truthy) identifier `s`, and carries
`uid = s.split(":")[0]` and `identifier_ns_uri = s.split(":")[1]`. -/
theorem processPending_mem (default_ns : String) (d : NsDict) (cts : DateTime)
    (mks : List String) (l : List (IdRev × String × EltDict))
    (logs : List String) (objs : List IobjectArgs)
    (h : processPending default_ns d cts mks l = some (logs, objs)) :
    ∀ arg ∈ objs, ∃ e ∈ l, ∃ s, e.1.id = some s
      ∧ arg.uid = (pySplit s ':').headD ""
      ∧ (pySplit s ':').get? 1 = some arg.identifier_ns_uri := by
  induction l generalizing logs objs with
  | nil =>
    simp only [processPending, Option.some.injEq, Prod.mk.injEq] at h
    obtain ⟨h1, h2⟩ := h
    intro arg harg
    rw [← h2] at harg
    cases harg
  | cons e rest ih =>
    obtain ⟨idrev, en, ed⟩ := e
    by_cases ht : pyTruthyStr idrev.id = true
    · simp only [processPending, ht, if_pos] at h
      rcases hseg : (pySplit (idrev.id.getD "") ':').get? 1 with _ | seg1
      · rw [hseg] at h; cases h
      · rw [hseg] at h
        rcases hrec : processPending default_ns d cts mks rest with _ | p
        · rw [hrec] at h; cases h
        · obtain ⟨logs', objs'⟩ := p
          rw [hrec] at h
          simp only [Option.some.injEq, Prod.mk.injEq] at h
          obtain ⟨hlogs, hobjs⟩ := h
          intro arg harg
          rw [← hobjs] at harg
          rcases List.mem_cons.mp harg with h | h
          · obtain ⟨s0, hs0⟩ : ∃ s0, idrev.id = some s0 := by
              rcases hid : idrev.id with _ | s0
              · rw [hid] at ht; simp [pyTruthyStr] at ht
              · exact ⟨s0, rfl⟩
            refine ⟨(idrev, en, ed), List.mem_cons_self _ rest, s0, hs0, ?_, ?_⟩
            · subst h; simp [mkIobjectArgs, hs0]
            · subst h
              simp only [mkIobjectArgs]
              rw [← hseg, hs0]
              simp
          · obtain ⟨e, he, s, hs, h1, h2⟩ := ih logs' objs' hrec arg h
            exact ⟨e, List.mem_cons_of_mem _ he, s, hs, h1, h2⟩
    · simp only [processPending, ht, if_neg, Bool.not_eq_true] at h
      rcases hrec : processPending default_ns d cts mks rest with _ | p
      · rw [hrec] at h; cases h
      · obtain ⟨logs', objs'⟩ := p
        rw [hrec] at h
        simp only [Option.some.injEq, Prod.mk.injEq] at h
        intro arg harg
        rw [← h.2] at harg
        obtain ⟨e, he, s, hs, h1, h2⟩ := ih logs' objs' hrec arg harg
        exact ⟨e, List.mem_cons_of_mem _ he, s, hs, h1, h2⟩

end IodefImport

namespace IodefImport

/-! ## Claim C1 -/

/-- C1, counterexample: the claim says the extracted `id` is taken from
the *first* `IncidentID` child in document order, here the child with
`name="a"` and text `1`, i.e. `"a:1"`.  On `c1Node` — both an
`IncidentID` and a `ReportTime` are present — the loop overwrites `id`
at the second `IncidentID` (no `found_id` guard protects the slot) and
only then reaches `ReportTime` and stops, so the code returns `"b:2"`,
not `"a:1"`. -/
theorem c1_first_match_counterexample :
    (id_and_revision_extractor c1Node).map (fun out => out.id)
      = some (some "b:2")
    ∧ incidentIdOf (XmlNode.mk "IncidentID" [("name", "a")] "1" []) = "a:1"
    ∧ ("b:2" : String) ≠ "a:1" :=
  ⟨by decide, by decide, by decide⟩

/-- C1 (amended): for an `Incident` node whose children include an
`IncidentID` and a `ReportTime`, and whose `ReportTime` children all
carry parseable text (an unparseable one makes the extractor raise
instead), the extractor returns with both `id` and `timestamp`
populated, and the scan stops as soon as both values have been found:
siblings after a stretch containing both never influence the result.
The value of each field is the one written by the *most recently
scanned* matching child before the stop — which coincides with the
first occurrence whenever the child name occurs only once, as stated in
the third conjunct for `IncidentID`; the first-occurrence reading of
the claim fails when a second occurrence is scanned before the stop
(`c1_first_match_counterexample`). -/
theorem c1_extractor_scan_amended :
    (∀ (attrs : List (String × String)) (ct : String) (l : List XmlNode),
      (∀ c ∈ l, c.name = "ReportTime" → (parse_datetime c.content).isSome) →
      (∃ c ∈ l, c.name = "IncidentID") →
      (∃ c ∈ l, c.name = "ReportTime") →
      ∃ out, id_and_revision_extractor (.mk "Incident" attrs ct l) = some out
        ∧ out.id.isSome ∧ out.timestamp.isSome)
    ∧ (∀ (attrs : List (String × String)) (ct : String) (pre post : List XmlNode),
      (∀ c ∈ pre, c.name = "ReportTime" → (parse_datetime c.content).isSome) →
      (∃ c ∈ pre, c.name = "IncidentID") →
      (∃ c ∈ pre, c.name = "ReportTime") →
      id_and_revision_extractor (.mk "Incident" attrs ct (pre ++ post))
        = id_and_revision_extractor (.mk "Incident" attrs ct pre))
    ∧ (∀ (attrs : List (String × String)) (ct : String) (l1 : List XmlNode)
        (cid : XmlNode) (l2 : List XmlNode),
      cid.name = "IncidentID" →
      (∀ c ∈ l1, c.name ≠ "IncidentID") →
      (∀ c ∈ l2, c.name ≠ "IncidentID") →
      (∀ c ∈ l1 ++ cid :: l2, c.name = "ReportTime" →
        (parse_datetime c.content).isSome) →
      ∃ out, id_and_revision_extractor (.mk "Incident" attrs ct (l1 ++ cid :: l2))
        = some out ∧ out.id = some (incidentIdOf cid)) := by
  have hunf : ∀ (attrs : List (String × String)) (ct : String) (l : List XmlNode),
      id_and_revision_extractor (.mk "Incident" attrs ct l)
        = scanChildren l false false ⟨none, none⟩ := by
    intro attrs ct l
    simp [id_and_revision_extractor, XmlNode.name, XmlNode.children]
  refine ⟨?_, ?_, ?_⟩
  · intro attrs ct l hrt hex1 hex2
    rw [hunf]
    obtain ⟨out, heq, _, _, p1, p2⟩ :=
      scan_total l false false ⟨none, none⟩ hrt (fun h => by cases h)
        (fun h => by cases h)
    exact ⟨out, heq, p1 (Or.inr hex1), p2 (Or.inr hex2)⟩
  · intro attrs ct pre post hrt hex1 hex2
    rw [hunf, hunf]
    exact scan_append pre post false false ⟨none, none⟩ hrt (Or.inr hex1)
      (Or.inr hex2) (by simp)
  · intro attrs ct l1 cid l2 hcid h1 h2 hrt
    rw [hunf]
    exact scan_unique_id l1 cid l2 false ⟨none, none⟩ hcid h1 h2 hrt

/-- C1 witness: the three conjuncts of `c1_extractor_scan_amended`
instantiated on concrete nodes. -/
theorem c1_extractor_scan_amended_witness :
    (∃ out, id_and_revision_extractor
        (.mk "Incident" [] "" [c1WitnessIdNode, c1WitnessRtNode]) = some out
      ∧ out.id.isSome ∧ out.timestamp.isSome)
    ∧ id_and_revision_extractor (.mk "Incident" [] ""
        ([c1WitnessIdNode, c1WitnessRtNode]
          ++ [.mk "Description" [] "Large bot-net" []]))
      = id_and_revision_extractor
          (.mk "Incident" [] "" [c1WitnessIdNode, c1WitnessRtNode])
    ∧ (∃ out, id_and_revision_extractor
          (.mk "Incident" [] "" ([] ++ c1WitnessIdNode :: [c1WitnessRtNode]))
        = some out ∧ out.id = some (incidentIdOf c1WitnessIdNode)) :=
  ⟨c1_extractor_scan_amended.1 [] "" [c1WitnessIdNode, c1WitnessRtNode]
      (by decide) (by decide) (by decide),
   c1_extractor_scan_amended.2.1 [] "" [c1WitnessIdNode, c1WitnessRtNode]
      [.mk "Description" [] "Large bot-net" []] (by decide) (by decide) (by decide),
   c1_extractor_scan_amended.2.2 [] "" [] c1WitnessIdNode [c1WitnessRtNode]
      (by decide) (by decide) (by decide) (by decide)⟩

/-! ## Claim C2 -/

/-- C2: on `c2Node` the extractor returns identifier
`"csirt.example.com:908711"` and a timezone-aware timestamp denoting
the instant `2006-06-08T10:44:53Z`; and in general a timestamp text
that `parse_datetime` parses without a zone offset is made aware by
attaching UTC, with the civil fields untouched. -/
theorem c2_end_to_end_timestamp :
    ((id_and_revision_extractor c2Node).map (fun out => out.id)
        = some (some "csirt.example.com:908711")
      ∧ (id_and_revision_extractor c2Node).map
          (fun out => out.timestamp.map (fun tv => (is_aware tv, toInstant tv)))
        = some (some (true, toInstant ⟨2006, 6, 8, 10, 44, 53, 0, some 0⟩)))
    ∧ ∀ (s : String) (dt : DateTime), parse_datetime s = some dt →
        dt.utcoffset = none →
        reportTimeAware dt = { dt with utcoffset := some 0 } := by
  refine ⟨⟨by decide, by decide⟩, ?_⟩
  intro s dt _ hoff
  simp [reportTimeAware, is_aware, hoff, make_aware_utc]

/-- C2 witness: the general conjunct of `c2_end_to_end_timestamp`
applied to the same text without its zone suffix. -/
theorem c2_end_to_end_timestamp_witness :
    parse_datetime "2006-06-08T05:44:53" = some ⟨2006, 6, 8, 5, 44, 53, 0, none⟩
    ∧ reportTimeAware ⟨2006, 6, 8, 5, 44, 53, 0, none⟩
      = ⟨2006, 6, 8, 5, 44, 53, 0, some 0⟩ :=
  ⟨by decide,
   c2_end_to_end_timestamp.2 "2006-06-08T05:44:53"
     ⟨2006, 6, 8, 5, 44, 53, 0, none⟩ (by decide) rfl⟩

/-! ## Claim C3 -/

/-- C3: `embedding_pred` returns the child's element name (the string
`"Incident"`, an extraction label) exactly for children named
`Incident`, and the boolean `False` (inline) for every other child,
whatever the parent and the namespace mapping are. -/
theorem c3_embedding_pred_incident :
    ∀ (parent child : XmlNode) (ns_mapping : List (Option String × String)),
      (child.name = "Incident" →
        embedding_pred parent child ns_mapping = .ofString "Incident")
      ∧ (child.name ≠ "Incident" →
        embedding_pred parent child ns_mapping = .ofBool false) := by
  intro parent child ns_mapping
  constructor
  · intro h
    simp [embedding_pred, h]
  · intro h
    simp [embedding_pred, h]

/-- C3 witness: both branches on concrete children. -/
theorem c3_embedding_pred_incident_witness :
    embedding_pred (.mk "IODEF-Document" [] "" [])
        (.mk "Incident" [("purpose", "mitigation")] "" []) []
      = .ofString "Incident"
    ∧ embedding_pred (.mk "IODEF-Document" [] "" [])
        (.mk "Description" [] "Large bot-net" []) []
      = .ofBool false :=
  ⟨(c3_embedding_pred_incident (.mk "IODEF-Document" [] "" [])
      (.mk "Incident" [("purpose", "mitigation")] "" []) []).1 rfl,
   (c3_embedding_pred_incident (.mk "IODEF-Document" [] "" [])
      (.mk "Description" [] "Large bot-net" []) []).2 (by decide)⟩

/-! ## Claim C4 -/

/-- C4: the importer's pattern list maps
`"urn:ietf:params:xml:ns:iodef-1.0"` to family `iodef`, family
namespace `urn:ietf:params:xml:ns:iodef` and revision `1.0`; and in
`search_by_re_list` the first pattern of the ordered list that matches
wins. -/
theorem c4_namespace_resolution :
    search_by_re_list RE_LIST_NS_TYPE_FROM_NS_URL
        "urn:ietf:params:xml:ns:iodef-1.0"
      = some { family_ns := "urn:ietf:params:xml:ns:iodef", family := "iodef",
               family_tag := "iodef", revision := "1.0" }
    ∧ ∀ (r : String → Option NsInfo) (rest : List (String → Option NsInfo))
        (s : String) (info : NsInfo),
        r s = some info → search_by_re_list (r :: rest) s = some info := by
  refine ⟨by decide, ?_⟩
  intro r rest s info h
  simp [search_by_re_list, h]

/-- C4 witness: the first-match-wins conjunct applied to the importer's
own pattern. -/
theorem c4_namespace_resolution_witness :
    search_by_re_list (re_ns_type_from_ns_url :: [])
        "urn:ietf:params:xml:ns:iodef-1.0"
      = some { family_ns := "urn:ietf:params:xml:ns:iodef", family := "iodef",
               family_tag := "iodef", revision := "1.0" } :=
  c4_namespace_resolution.2 re_ns_type_from_ns_url []
    "urn:ietf:params:xml:ns:iodef-1.0"
    { family_ns := "urn:ietf:params:xml:ns:iodef", family := "iodef",
      family_tag := "iodef", revision := "1.0" } (by decide)

end IodefImport

namespace IodefImport

/-! ## Further helper lemmas -/

/-- `xml_import`, characterized: when the namespace lookup of the
top-level `'@@ns'` prefix succeeds and every truthy identifier has a
second `:`-segment, the import returns the skip-log entries and the
`create_iobject` calls determined entry-wise by the pending list. -/
theorem xml_import_spec (r : ImportResult) (d : NsDict) (cts : DateTime)
    (mks : List String) (a : Option String) (dns : String)
    (hns : nsGet d r.dict_repr.ns = some dns)
    (hsafe : ∀ e ∈ pendingOf r, pyTruthyStr e.1.id = true →
      ((pySplit (e.1.id.getD "") ':').get? 1).isSome) :
    xml_import r d cts mks a
      = some ((pendingOf r).filterMap skippedLogFor,
              (pendingOf r).filterMap (createdFor dns d cts mks)) := by
  have hp := processPending_spec dns d cts mks (pendingOf r) hsafe
  simp [xml_import, hns, hp]

/-- A record built by `createdFor` carries the family name and family
revision resolved from the default namespace. -/
theorem createdFor_family (dns : String) (d : NsDict) (cts : DateTime)
    (mks : List String) (e : IdRev × String × EltDict) (arg : IobjectArgs)
    (h : createdFor dns d cts mks e = some arg) :
    arg.iobject_family_name = familyNameOf dns
    ∧ arg.iobject_family_revision_name = familyRevisionOf dns := by
  unfold createdFor at h
  by_cases ht : pyTruthyStr e.1.id = true
  · rw [if_pos ht] at h
    obtain ⟨seg1, hseg, harg⟩ := Option.map_eq_some'.mp h
    rw [← harg]
    exact ⟨rfl, rfl⟩
  · rw [if_neg ht] at h
    cases h

/-- Length of a Python one-character split: one more than the number of
separator occurrences. -/
theorem pySplitAux_length (sep : Char) (l acc : List Char) :
    (pySplitAux sep l acc).length = l.count sep + 1 := by
  induction l generalizing acc with
  | nil => simp [pySplitAux]
  | cons c cs ih =>
    by_cases h : c = sep
    · simp [pySplitAux, h, ih, List.count_cons]
    · simp [pySplitAux, h, ih, List.count_cons]

/-- A leading occurrence is in particular a substring occurrence. -/
theorem containsSub_of_starts (h n : List Char)
    (hs : listStartsWith n h = true) : containsSub h n = true := by
  unfold containsSub
  rw [if_pos hs]

/-! ## Claim C5 -/

/-- C5: when no namespace pattern matches the resolved default
namespace — and likewise when the document declares no namespace, so
that the `None` prefix resolves through the freshly initialized
namespace dictionary to the dingos default URI — namespace resolution
raises nothing, and every persisted record carries the configured
defaults: family name `"iodef"` and empty family revision. -/
theorem c5_ns_fallback_defaults :
    (∀ (r : ImportResult) (d : NsDict) (cts : DateTime) (mks : List String)
        (a : Option String) (dns : String),
      nsGet d r.dict_repr.ns = some dns →
      search_by_re_list RE_LIST_NS_TYPE_FROM_NS_URL dns = none →
      (∀ e ∈ pendingOf r, pyTruthyStr e.1.id = true →
        ((pySplit (e.1.id.getD "") ':').get? 1).isSome) →
      ∃ logs objs, xml_import r d cts mks a = some (logs, objs)
        ∧ ∀ arg ∈ objs, arg.iobject_family_name = "iodef"
            ∧ arg.iobject_family_revision_name = "")
    ∧ (∀ (r : ImportResult) (cts : DateTime) (mks : List String)
        (a : Option String),
      r.dict_repr.ns = none →
      (∀ e ∈ pendingOf r, pyTruthyStr e.1.id = true →
        ((pySplit (e.1.id.getD "") ':').get? 1).isSome) →
      ∃ logs objs, xml_import r initNamespaceDict cts mks a = some (logs, objs)
        ∧ ∀ arg ∈ objs, arg.iobject_family_name = "iodef"
            ∧ arg.iobject_family_revision_name = "") := by
  have main : ∀ (r : ImportResult) (d : NsDict) (cts : DateTime)
      (mks : List String) (a : Option String) (dns : String),
      nsGet d r.dict_repr.ns = some dns →
      search_by_re_list RE_LIST_NS_TYPE_FROM_NS_URL dns = none →
      (∀ e ∈ pendingOf r, pyTruthyStr e.1.id = true →
        ((pySplit (e.1.id.getD "") ':').get? 1).isSome) →
      ∃ logs objs, xml_import r d cts mks a = some (logs, objs)
        ∧ ∀ arg ∈ objs, arg.iobject_family_name = "iodef"
            ∧ arg.iobject_family_revision_name = "" := by
    intro r d cts mks a dns hns hsearch hsafe
    refine ⟨_, _, xml_import_spec r d cts mks a dns hns hsafe, ?_⟩
    intro arg harg
    obtain ⟨e, he, hcf⟩ := List.mem_filterMap.mp harg
    obtain ⟨hf, hr⟩ := createdFor_family dns d cts mks e arg hcf
    rw [hf, hr]
    constructor
    · simp [familyNameOf, hsearch]
    · simp [familyRevisionOf, hsearch]
  refine ⟨main, ?_⟩
  intro r cts mks a hnone hsafe
  exact main r initNamespaceDict cts mks a DINGOS_NAMESPACE_URI
    (by rw [hnone]; rfl) (by decide) hsafe

/-- C5 witness: the no-namespace-declared conjunct on
`exampleImportResult`. -/
theorem c5_ns_fallback_defaults_witness :
    ∃ logs objs,
      xml_import exampleImportResult initNamespaceDict exampleCreateTs [] none
        = some (logs, objs)
      ∧ ∀ arg ∈ objs, arg.iobject_family_name = "iodef"
          ∧ arg.iobject_family_revision_name = "" :=
  c5_ns_fallback_defaults.2 exampleImportResult exampleCreateTs [] none
    rfl (by decide)

/-! ## Claim C6 -/

/-- C6: the single handler pair of `fact_handler_list` fires exactly on
facts whose last `/`-segment of the term is `Portlist`; the handler
replaces the values with the comma-split of the fact's value (as many
values as comma-separated tokens, order preserved, on the single fact
being created) and keeps the fact; on any other last segment no handler
of the list matches. -/
theorem c6_portlist_split :
    (∀ (fact : FactDict) (attr_info : List (String × String)) (k : AddFactKargs),
      ((pySplit fact.term '/').getLastD "" = "Portlist" →
        portlist_fact_pred fact attr_info = true
        ∧ (iodef_portlist_fact_handler () fact attr_info k).1.values
            = pySplit fact.value ','
        ∧ (iodef_portlist_fact_handler () fact attr_info k).2 = true)
      ∧ ((pySplit fact.term '/').getLastD "" ≠ "Portlist" →
        ∀ ph ∈ fact_handler_list, ph.1 fact attr_info = false))
    ∧ fact_handler_list = [(portlist_fact_pred, iodef_portlist_fact_handler)]
    ∧ (∀ s : String, (pySplit s ',').length = s.data.count ',' + 1)
    ∧ (∀ (attr_info : List (String × String)) (k : AddFactKargs),
      (iodef_portlist_fact_handler ()
        { node_id := "N000:L000", term := "Service/Portlist",
          attr := none, value := "80,443,8080" } attr_info k).1.values
        = ["80", "443", "8080"]) := by
  refine ⟨?_, rfl, ?_, ?_⟩
  · intro fact attr_info k
    constructor
    · intro h
      refine ⟨?_, rfl, rfl⟩
      simp only [portlist_fact_pred]
      rw [h]
      decide
    · intro h ph hph
      rcases List.mem_singleton.mp hph with rfl
      simp only [portlist_fact_pred]
      simpa using h
  · intro s
    exact pySplitAux_length ',' s.data []
  · intro attr_info k
    rfl

/-- C6 witness: the predicate and the split on the RFC 5070 example
portlist, and the non-match on a non-`Portlist` fact. -/
theorem c6_portlist_split_witness :
    (portlist_fact_pred c6FactPort [] = true
      ∧ (iodef_portlist_fact_handler () c6FactPort [] ⟨[]⟩).1.values
          = pySplit "60524,60526,60527,60531" ','
      ∧ (iodef_portlist_fact_handler () c6FactPort [] ⟨[]⟩).2 = true)
    ∧ (∀ ph ∈ fact_handler_list, ph.1 c6FactOther [] = false) :=
  ⟨(c6_portlist_split.1 c6FactPort [] ⟨[]⟩).1 (by decide),
   (c6_portlist_split.1 c6FactOther [] ⟨[]⟩).2 (by decide)⟩

/-! ## Claim C7 -/

/-- C7, counterexample: the claim says every attribute key other than
the `'@'`-prefixed internal ones and `dtype` yields `False`.  The key
`"xdtype"` is neither `'@'`-prefixed nor `dtype`, yet the code's
substring test `'dtype' in key` fires and the predicate returns
`True`. -/
theorem c7_substring_counterexample :
    attr_ignore_predicate
        ⟨"N001:A000", "Incident/Description", some "xdtype", "v"⟩ = some true
    ∧ listStartsWith "@".data "xdtype".data = false
    ∧ ("xdtype" : String) ≠ "dtype" := by
  decide

/-- C7 (amended): for attribute facts (string-valued attribute entry),
the predicate returns `True` exactly when the key contains `'@'` or
contains `'dtype'` as a substring — in particular for every
`'@'`-prefixed key and for the key `dtype` itself — and `False` exactly
when it contains neither. -/
theorem c7_attr_ignore_amended :
    ∀ (fact_dict : FactDict) (a : String), fact_dict.attr = some a →
      (attr_ignore_predicate fact_dict = some true
        ↔ (strContainsStr a "@" = true ∨ strContainsStr a "dtype" = true))
      ∧ (attr_ignore_predicate fact_dict = some false
        ↔ (strContainsStr a "@" = false ∧ strContainsStr a "dtype" = false))
      ∧ (listStartsWith "@".data a.data = true →
          attr_ignore_predicate fact_dict = some true)
      ∧ (a = "dtype" → attr_ignore_predicate fact_dict = some true) := by
  intro fd a ha
  have hdef : attr_ignore_predicate fd
      = (if strContainsStr a "@" then some true
         else if strContainsStr a "dtype" then some true else some false) := by
    simp [attr_ignore_predicate, ha]
  refine ⟨?_, ?_, ?_, ?_⟩
  · rw [hdef]
    by_cases h1 : strContainsStr a "@" = true
      <;> by_cases h2 : strContainsStr a "dtype" = true
      <;> simp [h1, h2]
  · rw [hdef]
    by_cases h1 : strContainsStr a "@" = true
      <;> by_cases h2 : strContainsStr a "dtype" = true
      <;> simp [h1, h2]
  · intro hs
    have hz : strContainsStr a "@" = true :=
      containsSub_of_starts a.data "@".data hs
    rw [hdef, if_pos hz]
  · intro haa
    subst haa
    rw [hdef]
    decide

/-- C7 witness: a dingos-internal `'@'`-prefixed key is ignored, a
plain schema key is not. -/
theorem c7_attr_ignore_amended_witness :
    attr_ignore_predicate
        ⟨"N001:A000", "Incident/IncidentID", some "@ns", "iodef"⟩ = some true
    ∧ attr_ignore_predicate
        ⟨"N001:A001", "Incident/IncidentID", some "name", "csirt"⟩ = some false :=
  ⟨(c7_attr_ignore_amended
      ⟨"N001:A000", "Incident/IncidentID", some "@ns", "iodef"⟩ "@ns" rfl).2.2.1
      (by decide),
   ((c7_attr_ignore_amended
      ⟨"N001:A001", "Incident/IncidentID", some "name", "csirt"⟩ "name" rfl).2.1).mpr
      (by decide)⟩

/-! ## Claim C8 -/

/-- C8: records with falsy identifiers are reported in the log and not
persisted, records with truthy identifiers are persisted, each in
pending order; a missing identifier never aborts the import (the call
still returns normally with the remaining records). -/
theorem c8_missing_id_skip :
    (∀ (r : ImportResult) (d : NsDict) (cts : DateTime) (mks : List String)
        (a : Option String) (dns : String),
      nsGet d r.dict_repr.ns = some dns →
      (∀ e ∈ pendingOf r, pyTruthyStr e.1.id = true →
        ((pySplit (e.1.id.getD "") ':').get? 1).isSome) →
      xml_import r d cts mks a
        = some ((pendingOf r).filterMap skippedLogFor,
                (pendingOf r).filterMap (createdFor dns d cts mks)))
    ∧ (∀ (dns : String) (d : NsDict) (cts : DateTime) (mks : List String)
        (e : IdRev × String × EltDict),
      pyTruthyStr e.1.id = false →
      skippedLogFor e = some (logMsgFor e.2.1)
        ∧ createdFor dns d cts mks e = none) := by
  constructor
  · intro r d cts mks a dns hns hsafe
    exact xml_import_spec r d cts mks a dns hns hsafe
  · intro dns d cts mks e hf
    constructor
    · simp [skippedLogFor, hf]
    · simp [createdFor, hf]

/-- C8 witness: the full characterization on `exampleImportResult`
(one skipped top-level record, one persisted embedded record), plus the
skip conjunct on its top-level entry. -/
theorem c8_missing_id_skip_witness :
    xml_import exampleImportResult initNamespaceDict exampleCreateTs [] none
      = some ((pendingOf exampleImportResult).filterMap skippedLogFor,
              (pendingOf exampleImportResult).filterMap
                (createdFor DINGOS_NAMESPACE_URI initNamespaceDict
                  exampleCreateTs []))
    ∧ (skippedLogFor (⟨none, none⟩, "IODEF-Document", ⟨none, []⟩)
        = some (logMsgFor "IODEF-Document")
      ∧ createdFor DINGOS_NAMESPACE_URI initNamespaceDict exampleCreateTs []
          (⟨none, none⟩, "IODEF-Document", ⟨none, []⟩) = none) :=
  ⟨c8_missing_id_skip.1 exampleImportResult initNamespaceDict exampleCreateTs
      [] none DINGOS_NAMESPACE_URI rfl (by decide),
   c8_missing_id_skip.2 DINGOS_NAMESPACE_URI initNamespaceDict exampleCreateTs
      [] (⟨none, none⟩, "IODEF-Document", ⟨none, []⟩) rfl⟩

/-! ## Claim C9 -/

/-- C9, counterexample: the claim says the top-level document record is
part of the persisted output, ahead of the embedded records.  On
`exampleImportResult` — top-level `IODEF-Document` plus one embedded
`Incident` — the persisted records are `["Incident"]` only: the
top-level record has no identifier (for IODEF it never has one) and is
skipped at the `if not id_and_rev_info['id']` guard. -/
theorem c9_toplevel_skipped_counterexample :
    (xml_import exampleImportResult initNamespaceDict exampleCreateTs [] none).map
        (fun p => p.2.map (fun arg => arg.iobject_type_name))
      = some ["Incident"]
    ∧ ("IODEF-Document" : String) ∉ ["Incident"]
    ∧ exampleImportResult.elt_name = "IODEF-Document" := by
  decide

/-- C9 (amended): the pending list is ordered with the top-level record
first and the embedded records following in document order, and the
records handed to persistence are exactly the pending records with
truthy identifiers, in that order; the top-level record, when it lacks
an identifier (always the case for an `IODEF-Document` root), is logged
as skipped and is *not* part of the output, which then consists of the
embedded records with identifiers in document order. -/
theorem c9_order_amended :
    ∀ (r : ImportResult) (d : NsDict) (cts : DateTime) (mks : List String)
      (a : Option String) (dns : String),
      nsGet d r.dict_repr.ns = some dns →
      (∀ e ∈ pendingOf r, pyTruthyStr e.1.id = true →
        ((pySplit (e.1.id.getD "") ':').get? 1).isSome) →
      r.id_and_rev_info.id = none →
      pendingOf r = (r.id_and_rev_info, r.elt_name, r.dict_repr)
          :: r.embedded_objects.map
              (fun e => (e.id_and_rev_info, e.elt_name, e.dict_repr))
      ∧ xml_import r d cts mks a
        = some (logMsgFor r.elt_name
                  :: (r.embedded_objects.map
                      (fun e => (e.id_and_rev_info, e.elt_name, e.dict_repr))).filterMap
                      skippedLogFor,
                (r.embedded_objects.map
                    (fun e => (e.id_and_rev_info, e.elt_name, e.dict_repr))).filterMap
                    (createdFor dns d cts mks)) := by
  intro r d cts mks a dns hns hsafe htop
  refine ⟨rfl, ?_⟩
  rw [xml_import_spec r d cts mks a dns hns hsafe]
  simp [pendingOf, skippedLogFor, createdFor, htop, pyTruthyStr]

/-- C9 witness: the amended ordering on `exampleImportResult`. -/
theorem c9_order_amended_witness :
    pendingOf exampleImportResult
      = (exampleImportResult.id_and_rev_info, exampleImportResult.elt_name,
          exampleImportResult.dict_repr)
        :: exampleImportResult.embedded_objects.map
            (fun e => (e.id_and_rev_info, e.elt_name, e.dict_repr))
    ∧ xml_import exampleImportResult initNamespaceDict exampleCreateTs [] none
      = some (logMsgFor exampleImportResult.elt_name
                :: (exampleImportResult.embedded_objects.map
                    (fun e => (e.id_and_rev_info, e.elt_name, e.dict_repr))).filterMap
                    skippedLogFor,
              (exampleImportResult.embedded_objects.map
                  (fun e => (e.id_and_rev_info, e.elt_name, e.dict_repr))).filterMap
                  (createdFor DINGOS_NAMESPACE_URI initNamespaceDict
                    exampleCreateTs [])) :=
  c9_order_amended exampleImportResult initNamespaceDict exampleCreateTs []
    none DINGOS_NAMESPACE_URI rfl (by decide) rfl

/-! ## Claim C10 -/

/-- C10: the `identifier_ns_uri` parameter of `xml_import` is stored on
the instance but never read, so the result is the same whatever is
passed; and every persisted record takes `uid` from the part of its
extracted identifier before the first `:` and `identifier_ns_uri` from
the second `:`-separated segment. -/
theorem c10_identifier_ns_unused :
    (∀ (r : ImportResult) (d : NsDict) (cts : DateTime) (mks : List String)
        (a b : Option String),
      xml_import r d cts mks a = xml_import r d cts mks b)
    ∧ (∀ (r : ImportResult) (d : NsDict) (cts : DateTime) (mks : List String)
        (a : Option String) (logs : List String) (objs : List IobjectArgs),
      xml_import r d cts mks a = some (logs, objs) →
      ∀ arg ∈ objs, ∃ e ∈ pendingOf r, ∃ s, e.1.id = some s
        ∧ arg.uid = (pySplit s ':').headD ""
        ∧ (pySplit s ':').get? 1 = some arg.identifier_ns_uri) := by
  constructor
  · intro r d cts mks a b
    rfl
  · intro r d cts mks a logs objs h arg harg
    rcases hns : nsGet d r.dict_repr.ns with _ | dns
    · rw [xml_import, hns] at h
      cases h
    · rw [xml_import, hns] at h
      exact processPending_mem dns d cts mks (pendingOf r) logs objs h arg harg

/-- C10 witness: on `exampleImportResult`, an explicit override changes
nothing, and the one persisted record has `uid = "csirt.example.com"`
and `identifier_ns_uri = "908711"`, the two `:`-segments of its
extracted identifier. -/
theorem c10_identifier_ns_unused_witness :
    xml_import exampleImportResult initNamespaceDict exampleCreateTs []
        (some "http://example.org/ids")
      = xml_import exampleImportResult initNamespaceDict exampleCreateTs [] none
    ∧ (∀ arg ∈ exampleObjs, ∃ e ∈ pendingOf exampleImportResult,
        ∃ s, e.1.id = some s
          ∧ arg.uid = (pySplit s ':').headD ""
          ∧ (pySplit s ':').get? 1 = some arg.identifier_ns_uri) :=
  ⟨c10_identifier_ns_unused.1 exampleImportResult initNamespaceDict
      exampleCreateTs [] (some "http://example.org/ids") none,
   c10_identifier_ns_unused.2 exampleImportResult initNamespaceDict
      exampleCreateTs [] none exampleLogs exampleObjs (by decide)⟩

end IodefImport
